import Mathlib

/-
Verification of the sqlite-backed document store: a shallow embedding of
the engine's write path (Put, Delete), read path (Get), AllDocs scan,
Changes feed, and client-level CreateDB/AllDBs, together with theorems
settling the behavioural claims about them.

The embedding follows x/sqlite/db.go, x/sqlite/views.go, the changes
file, x/sqlite/sqlite.go and x/sqlite/schema.go. Helpers that those files
call but whose sources are not in the tree (parseRev, extractRev,
prepareDoc, the revision type) are modelled from the specification and
carry a doc comment saying so.
-/

set_option maxRecDepth 4096

/-- Error kinds carried by engine operations, mirroring the internal.Error
statuses used by the source: 400, 404, 409, 412, and raw storage errors
that are surfaced unwrapped. -/
inductive Err where
  | badRequest (msg : String)
  | notFound (msg : String)
  | conflict (msg : String)
  | preconditionFailed (msg : String)
  | storage (msg : String)
deriving DecidableEq, Repr

instance {ε α : Type} [DecidableEq ε] [DecidableEq α] : DecidableEq (Except ε α) := fun a b =>
  match a, b with
  | .ok x, .ok y =>
    match decEq x y with
    | .isTrue h => .isTrue (congrArg Except.ok h)
    | .isFalse h => .isFalse (fun hh => h (Except.ok.inj hh))
  | .ok _, .error _ => .isFalse (fun hh => Except.noConfusion hh)
  | .error _, .ok _ => .isFalse (fun hh => Except.noConfusion hh)
  | .error d, .error e =>
    match decEq d e with
    | .isTrue h => .isTrue (congrArg Except.error h)
    | .isFalse h => .isFalse (fun hh => h (Except.error.inj hh))

/-- Modelled from the spec: a revision is a pair of a positive integer and
a rev-id string (the `revision` struct of the source, which is not in the
tree). The zero value, rev = 0, stands for "no revision". -/
structure Revision where
  rev : Nat
  id : String
deriving DecidableEq, Repr

/-- Modelled from the spec: the string form "<rev>-<rev_id>" of a revision;
the zero revision renders as the empty string, which is what the Mode-B
conflict rules of section 4.2 require when a document does not exist. -/
def Revision.string (r : Revision) : String :=
  if r.rev = 0 then "" else toString r.rev ++ "-" ++ r.id

/-- Split a character list at its first dash; none when no dash occurs. -/
def splitDash : List Char → Option (List Char × List Char)
  | [] => none
  | c :: cs =>
    if c.toNat == 45 then some ([], cs)
    else
      match splitDash cs with
      | none => none
      | some p => some (c :: p.1, p.2)

def digitVal (c : Char) : Option Nat :=
  if 48 ≤ c.toNat ∧ c.toNat ≤ 57 then some (c.toNat - 48) else none

/-- The decimal value of a nonempty digit string, none otherwise. -/
def natOfChars (l : List Char) : Option Nat :=
  match l with
  | [] => none
  | _ :: _ =>
    l.foldl (fun acc c =>
      match acc, digitVal c with
      | some a, some d => some (10 * a + d)
      | _, _ => none) (some 0)

/-- Modelled from the spec (section 4.1): parse "<N>-<hex>" into a
revision; fails when the separator is missing or N is not a positive
integer in canonical decimal form. The rev id after the first dash is
accepted verbatim. -/
def parseRev (s : String) : Except Err Revision :=
  match splitDash s.data with
  | none => .error (Err.badRequest ("invalid rev format"))
  | some (numChars, restChars) =>
    match natOfChars numChars with
    | none => .error (Err.badRequest ("invalid rev format"))
    | some n =>
      if 0 < n ∧ toString n ++ "-" ++ String.mk restChars = s then
        .ok ⟨n, String.mk restChars⟩
      else .error (Err.badRequest ("invalid rev format"))

/-- Modelled from the spec: a JSON document body, reduced to the members
the write path inspects (`_id`, `_rev`, `_deleted`, `_revisions`) plus the
remaining string-valued members. -/
structure Doc where
  xid : Option String
  xrev : Option String
  xdeleted : Option Bool
  xrevisions : Option (Nat × List String)
  fields : List (String × String)
deriving DecidableEq, Repr

def jsonStr (s : String) : String := "\"" ++ s ++ "\""

/-- Lexicographic strictly-less-than on character lists, comparing code
points; agrees with byte order (memcmp, as SQLite's BINARY collation and
Go's string order use) because UTF-8 preserves code-point order. -/
def charsLt : List Char → List Char → Bool
  | [], [] => false
  | [], _ :: _ => true
  | _ :: _, [] => false
  | a :: as, b :: bs =>
    if a.toNat < b.toNat then true
    else if b.toNat < a.toNat then false
    else charsLt as bs

/-- Strictly-less-than on strings, via their character lists. -/
def strLtb (a b : String) : Bool := charsLt a.data b.data

/-- Insertion of one key-value pair into a key-sorted entry list. -/
def insertField (p : String × String) : List (String × String) → List (String × String)
  | [] => [p]
  | q :: qs => if strLtb q.1 p.1 then q :: insertField p qs else p :: q :: qs

/-- Sort serialized entries by key, as JSON marshalling of a map does. -/
def sortFields : List (String × String) → List (String × String)
  | [] => []
  | p :: ps => insertField p (sortFields ps)

/-- Modelled from the spec (section 4.1): canonicalize a body by dropping
members whose name begins with an underscore except `_deleted`, which is
kept only when true, and serializing the rest as JSON with sorted keys.
Checked against the repository's own hash vectors below. -/
def canonicalDoc (d : Doc) : String :=
  let raw := (if d.xdeleted = some true then [("_deleted", "true")] else [])
    ++ d.fields.map (fun p => (p.1, jsonStr p.2))
  let entries := (sortFields raw).map (fun p => jsonStr p.1 ++ ":" ++ p.2)
  "\x7b" ++ String.intercalate "," entries ++ "\x7d"

/-- UTF-8 encoding of one character, as Go produces for a string. -/
def charUtf8 (c : Char) : List Nat :=
  let n := c.toNat
  if n < 128 then [n]
  else if n < 2048 then [192 + n / 64, 128 + n % 64]
  else if n < 65536 then [224 + n / 4096, 128 + (n / 64) % 64, 128 + n % 64]
  else [240 + n / 262144, 128 + (n / 4096) % 64, 128 + (n / 64) % 64, 128 + n % 64]

def utf8Bytes (s : String) : List Nat :=
  s.data.foldr (fun c acc => charUtf8 c ++ acc) []

/-- Word arithmetic modulo 2^32 for the MD5 rounds. -/
def add32 (a b : Nat) : Nat := (a + b) % 4294967296

/-- Left rotation of a 32-bit word. -/
def rotl32 (x n : Nat) : Nat := ((x * 2 ^ n) % 4294967296) + x % 4294967296 / 2 ^ (32 - n)

/-- The 64 MD5 sine-derived round constants. -/
def md5K : List Nat := [
  3614090360, 3905402710, 606105819, 3250441966, 4118548399, 1200080426, 2821735955, 4249261313,
  1770035416, 2336552879, 4294925233, 2304563134, 1804603682, 4254626195, 2792965006, 1236535329,
  4129170786, 3225465664, 643717713, 3921069994, 3593408605, 38016083, 3634488961, 3889429448,
  568446438, 3275163606, 4107603335, 1163531501, 2850285829, 4243563512, 1735328473, 2368359562,
  4294588738, 2272392833, 1839030562, 4259657740, 2763975236, 1272893353, 4139469664, 3200236656,
  681279174, 3936430074, 3572445317, 76029189, 3654602809, 3873151461, 530742520, 3299628645,
  4096336452, 1126891415, 2878612391, 4237533241, 1700485571, 2399980690, 4293915773, 2240044497,
  1873313359, 4264355552, 2734768916, 1309151649, 4149444226, 3174756917, 718787259, 3951481745]

/-- The MD5 per-round left-rotation amounts. -/
def md5S : List Nat := [
  7, 12, 17, 22, 7, 12, 17, 22, 7, 12, 17, 22, 7, 12, 17, 22,
  5, 9, 14, 20, 5, 9, 14, 20, 5, 9, 14, 20, 5, 9, 14, 20,
  4, 11, 16, 23, 4, 11, 16, 23, 4, 11, 16, 23, 4, 11, 16, 23,
  6, 10, 15, 21, 6, 10, 15, 21, 6, 10, 15, 21, 6, 10, 15, 21]

/-- The MD5 round mixing function, by round index. -/
def md5F (i b c d : Nat) : Nat :=
  if i < 16 then (b &&& c) ||| ((4294967295 - b) &&& d)
  else if i < 32 then (d &&& b) ||| ((4294967295 - d) &&& c)
  else if i < 48 then b ^^^ c ^^^ d
  else c ^^^ (b ||| (4294967295 - d))

/-- The MD5 message-word index, by round index. -/
def md5G (i : Nat) : Nat :=
  if i < 16 then i
  else if i < 32 then (5 * i + 1) % 16
  else if i < 48 then (3 * i + 5) % 16
  else (7 * i) % 16

def md5Round (M : List Nat) (st : Nat × Nat × Nat × Nat) (i : Nat) : Nat × Nat × Nat × Nat :=
  match st with
  | (a, b, c, d) =>
    let f := add32 (add32 (add32 (md5F i b c d) a) (md5K.getD i 0)) (M.getD (md5G i) 0)
    (d, add32 b (rotl32 f (md5S.getD i 0)), b, c)

def md5Block (st : Nat × Nat × Nat × Nat) (block : List Nat) : Nat × Nat × Nat × Nat :=
  let M := (List.range 16).map (fun j =>
    block.getD (4 * j) 0 + 256 * block.getD (4 * j + 1) 0
      + 65536 * block.getD (4 * j + 2) 0 + 16777216 * block.getD (4 * j + 3) 0)
  match st, (List.range 64).foldl (md5Round M) st with
  | (a0, b0, c0, d0), (a, b, c, d) => (add32 a a0, add32 b b0, add32 c c0, add32 d d0)

def md5Blocks : Nat → (Nat × Nat × Nat × Nat) → List Nat → Nat × Nat × Nat × Nat
  | 0, st, _ => st
  | fuel + 1, st, l => md5Blocks fuel (md5Block st (l.take 64)) (l.drop 64)

/-- MD5 padding: a 1 bit, zeros to 56 mod 64, then the bit length in
little-endian order. -/
def md5Pad (msg : List Nat) : List Nat :=
  let len := msg.length
  msg ++ [128] ++ List.replicate ((120 - (len + 1) % 64) % 64) 0
    ++ (List.range 8).map (fun i => 8 * len / 2 ^ (8 * i) % 256)

def leBytes4 (x : Nat) : List Nat := [x % 256, x / 256 % 256, x / 65536 % 256, x / 16777216 % 256]

def md5Bytes (msg : List Nat) : List Nat :=
  let padded := md5Pad msg
  match md5Blocks (padded.length / 64) (1732584193, 4023233417, 2562383102, 271733878) padded with
  | (a, b, c, d) => leBytes4 a ++ leBytes4 b ++ leBytes4 c ++ leBytes4 d

def hexDigit (n : Nat) : Char := if n < 10 then Char.ofNat (48 + n) else Char.ofNat (87 + n)

def byteHex (b : Nat) : String := String.mk [hexDigit (b / 16), hexDigit (b % 16)]

/-- Lowercase hex MD5 of a string, as crypto/md5 plus hex.EncodeToString
produce. -/
def md5hex (s : String) : String := String.join ((md5Bytes (utf8Bytes s)).map byteHex)

/-- A row of the per-database revision-tree table `<name>_revs`
(schema.go): identity (id, rev, rev_id) plus an optional parent pointer. -/
structure RevRow where
  id : String
  rev : Nat
  revId : String
  parentRev : Option Nat
  parentRevId : Option String
deriving DecidableEq, Repr

/-- A row of the per-database body table `<name>` (schema.go): the
auto-assigned change sequence, the revision identity, the stored body
bytes, and the deleted flag. -/
structure DocRow where
  seq : Nat
  id : String
  rev : Nat
  revId : String
  doc : String
  deleted : Bool
deriving DecidableEq, Repr

/-- The persistent state of one database: the revision-tree table and the
body table, each in insertion order. -/
structure DB where
  revs : List RevRow
  docs : List DocRow
deriving DecidableEq, Repr

/-- The ordering of `ORDER BY rev DESC, rev_id DESC`: lexicographic on
the revision number then the rev-id string in byte order. -/
def revLtb (a b : Nat × String) : Bool :=
  decide (a.1 < b.1) || (a.1 == b.1 && strLtb a.2 b.2)

def rowKey (r : DocRow) : Nat × String := (r.rev, r.revId)

/-- One step of the highest-(rev, rev_id) scan. -/
def betterRow (acc : Option DocRow) (r : DocRow) : Option DocRow :=
  match acc with
  | none => some r
  | some m => if revLtb (rowKey m) (rowKey r) then some r else some m

/-- The query `SELECT ... FROM <name> WHERE id = $1 ORDER BY rev DESC,
rev_id DESC LIMIT 1` used by Put, Get and Delete: the body row with the
highest (rev, rev_id) for the document, if any. -/
def maxDocRow (s : DB) (id : String) : Option DocRow :=
  (s.docs.filter (fun r => r.id == id)).foldl betterRow none

/-- The current revision as Put sees it: the zero revision when the
document has no body rows (sql.ErrNoRows leaves the struct zero). -/
def curRev (s : DB) (id : String) : Revision :=
  match maxDocRow s id with
  | none => ⟨0, ""⟩
  | some row => ⟨row.rev, row.revId⟩

/-- Whether a revision node already exists (the UNIQUE(id, rev, rev_id)
constraint of the `_revs` table). -/
def nodeExists (s : DB) (id : String) (rev : Nat) (revId : String) : Bool :=
  s.revs.any (fun r => r.id == id && r.rev == rev && r.revId == revId)

/-- Whether a body row already exists (the UNIQUE(id, rev, rev_id)
constraint of the body table). -/
def bodyExists (s : DB) (id : String) (rev : Nat) (revId : String) : Bool :=
  s.docs.any (fun r => r.id == id && r.rev == rev && r.revId == revId)

/-- The next change sequence: SQLite assigns max(seq) + 1 to an INTEGER
PRIMARY KEY on insert. -/
def maxSeq (s : DB) : Nat := s.docs.foldl (fun m r => max m r.seq) 0

/-- The aggregate `COALESCE(MAX(rev), 0)` over `<name>_revs WHERE id = $1`
that Put and Delete use to number a new revision. -/
def maxRevsRev (s : DB) (id : String) : Nat :=
  s.revs.foldl (fun m r => if r.id == id then max m r.rev else m) 0

/-- Modelled from the spec: the result of prepareDoc — the target id, the
MD5 rev id of the canonical body, the canonical body itself, and the
deleted flag. -/
structure DocData where
  id : String
  rev : String
  doc : String
  deleted : Bool
deriving DecidableEq, Repr

/-- Modelled from the spec: prepareDoc fails when the body carries an
`_id` different from the target id, and otherwise canonicalizes the body
and hashes it. -/
def prepareDoc (docID : String) (d : Doc) : Except Err DocData :=
  if d.xid.getD docID = docID then
    .ok ⟨docID, md5hex (canonicalDoc d), canonicalDoc d, d.xdeleted == some true⟩
  else .error (Err.badRequest ("Document ID must match _id in document"))

/-- Modelled from the spec: extract the body-level `_rev`, empty when
absent; db.go reads no other body member to derive the doc rev. -/
def extractRev (d : Doc) : String := d.xrev.getD ""

/-- The two Put options db.go recognizes: `new_edits` (default true) and
`rev`, the latter empty when unset. -/
structure PutOpts where
  newEdits : Bool
  rev : String
deriving DecidableEq, Repr

/-- The Put write path of db.go: rev/option validation, then either the
new_edits=false replication insert (revision node inserted ignoring a
unique-constraint conflict, body row inserted, a body conflict answered
with the supplied rev and a rollback) or the new_edits=true interactive
write (conflict unless the supplied rev equals the current highest body
row's string form, then a child revision node and body row). -/
def Put (s : DB) (docID : String) (doc : Doc) (opts : PutOpts) : Except Err (DB × String) :=
  let docRev0 := extractRev doc
  if opts.rev != "" && docRev0 != "" && opts.rev != docRev0 then
    .error (Err.badRequest ("Document rev and option have different values"))
  else
    let docRev := if docRev0 == "" && opts.rev != "" then opts.rev else docRev0
    match prepareDoc docID doc with
    | .error e => .error e
    | .ok data =>
      if opts.newEdits = false then
        if docRev = "" then
          .error (Err.badRequest ("When `new_edits: false`, the document needs `_rev` or `_revisions` specified"))
        else
          match parseRev docRev with
          | .error e => .error e
          | .ok rev =>
            let revs1 := if nodeExists s docID rev.rev rev.id then s.revs
              else s.revs ++ [⟨docID, rev.rev, rev.id, none, none⟩]
            if bodyExists s docID rev.rev rev.id then
              .ok (s, docRev)
            else
              .ok (⟨revs1, s.docs ++ [⟨maxSeq s + 1, docID, rev.rev, rev.id, data.doc, data.deleted⟩]⟩,
                toString rev.rev ++ "-" ++ rev.id)
      else
        let cur := curRev s docID
        if cur.string != docRev then .error (Err.conflict ("conflict"))
        else
          let newRev := maxRevsRev s docID + 1
          if nodeExists s docID newRev data.rev then
            .error (Err.storage ("UNIQUE constraint failed"))
          else
            let parentRev : Option Nat := if cur.rev != 0 then some cur.rev else none
            let parentRevId : Option String := if cur.rev != 0 then some cur.id else none
            if bodyExists s docID newRev data.rev then
              .error (Err.storage ("UNIQUE constraint failed"))
            else
              .ok (⟨s.revs ++ [⟨docID, newRev, data.rev, parentRev, parentRevId⟩],
                s.docs ++ [⟨maxSeq s + 1, docID, newRev, data.rev, data.doc, data.deleted⟩]⟩,
                Revision.string ⟨newRev, data.rev⟩)

/-- The literal body map[string]interface\x7b\x7d with only `_deleted: true`
that Delete writes. -/
def deletedDoc : Doc := ⟨none, none, some true, none, []⟩

/-- The Delete path of db.go: reads the current highest body row (NotFound
when the document has none), conflicts unless its string form equals the
rev option, then inserts a tombstone revision node and a body row with
deleted hardcoded TRUE. -/
def Delete (s : DB) (docID : String) (opts : PutOpts) : Except Err (DB × String) :=
  let docRev := opts.rev
  match prepareDoc docID deletedDoc with
  | .error e => .error e
  | .ok data =>
    match maxDocRow s docID with
    | none => .error (Err.notFound ("not found"))
    | some row =>
      let cur : Revision := ⟨row.rev, row.revId⟩
      if cur.string != docRev then .error (Err.conflict ("conflict"))
      else
        let newRev := maxRevsRev s docID + 1
        if nodeExists s docID newRev data.rev then
          .error (Err.storage ("UNIQUE constraint failed"))
        else
          let parentRev : Option Nat := if cur.rev != 0 then some cur.rev else none
          let parentRevId : Option String := if cur.rev != 0 then some cur.id else none
          if bodyExists s docID newRev data.rev then
            .error (Err.storage ("UNIQUE constraint failed"))
          else
            .ok (⟨s.revs ++ [⟨docID, newRev, data.rev, parentRev, parentRevId⟩],
              s.docs ++ [⟨maxSeq s + 1, docID, newRev, data.rev, data.doc, true⟩]⟩,
              Revision.string ⟨newRev, data.rev⟩)

/-- The Get read path of db.go: with a rev option, exactly that body row
(NotFound when absent, the body returned even when the row is deleted,
since the deleted flag is not read on that branch); without one, the
highest (rev, rev_id) body row, NotFound when absent or deleted. Returns
the rev string and the body. Metadata enrichment (conflicts,
deleted_conflicts, revs_info) is not modelled: no claim depends on it and
it only splices extra members into the returned body. -/
def Get (s : DB) (id : String) (optsRev : String) : Except Err (String × String) :=
  if optsRev != "" then
    match parseRev optsRev with
    | .error e => .error e
    | .ok r =>
      match s.docs.find? (fun row => row.id == id && row.rev == r.rev && row.revId == r.id) with
      | none => .error (Err.notFound ("not found"))
      | some row => .ok (r.string, row.doc)
  else
    match maxDocRow s id with
    | none => .error (Err.notFound ("not found"))
    | some row =>
      if row.deleted then .error (Err.notFound ("not found"))
      else .ok (Revision.string ⟨row.rev, row.revId⟩, row.doc)

/-- The AllDocs scan of views.go: `SELECT id, rev || '-' || rev_id` over
every row of the body table, options ignored, no WHERE clause and no
ORDER BY (rows come back in table order). -/
def AllDocs (s : DB) : List (String × String) :=
  s.docs.map (fun r => (r.id, toString r.rev ++ "-" ++ r.revId))

/-- A row of the changes feed: id, seq, deleted, and the single rev
string `rev || '-' || rev_id`. -/
structure ChangeRow where
  id : String
  seq : Nat
  deleted : Bool
  rev : String
deriving DecidableEq, Repr

/-- The value a Changes call returns: the selected rows and the ETag
computed by the same query. -/
structure ChangesFeed where
  rows : List ChangeRow
  etag : String
deriving DecidableEq, Repr

/-- Stable insertion into a seq-ascending list. -/
def insertBySeq (r : DocRow) : List DocRow → List DocRow
  | [] => [r]
  | q :: qs => if r.seq < q.seq then r :: q :: qs else q :: insertBySeq r qs

/-- The `ORDER BY seq` of the changes scan. -/
def sortBySeq : List DocRow → List DocRow
  | [] => []
  | r :: rs => insertBySeq r (sortBySeq rs)

/-- The SQL aggregate `COALESCE(MIN(seq), 0)`. -/
def coalesceMin (l : List Nat) : Nat :=
  match l with
  | [] => 0
  | x :: xs => xs.foldl Nat.min x

/-- The SQL aggregate `COALESCE(MAX(seq), 0)`. -/
def coalesceMax (l : List Nat) : Nat :=
  match l with
  | [] => 0
  | x :: xs => xs.foldl Nat.max x

/-- The summary row the changes query UNIONs in front of the results:
`COUNT(*) || '.' || COALESCE(MIN(seq), 0) || '.' || COALESCE(MAX(seq), 0)`
over the selected rows. -/
def changesSummary (results : List DocRow) : String :=
  toString results.length ++ "." ++ toString (coalesceMin (results.map (fun r => r.seq)))
    ++ "." ++ toString (coalesceMax (results.map (fun r => r.seq)))

/-- The Changes feed: one query scans the body table ordered by seq and
prepends an aggregate summary row; the ETag is the hex MD5 of that
summary. Local documents are not filtered out by the query. -/
def Changes (s : DB) : ChangesFeed :=
  let results := sortBySeq s.docs
  ⟨results.map (fun r => ⟨r.id, r.seq, r.deleted, toString r.rev ++ "-" ++ r.revId⟩),
    md5hex (changesSummary results)⟩

/-- The schema-level state of the store: names of the tables and of the
indexes present (sqlite_schema rows of type 'table' and 'index'). -/
structure Server where
  tables : List String
  indexes : List String
deriving DecidableEq, Repr

/-- Whether the first list is an initial segment of the second. -/
def charsLead : List Char → List Char → Bool
  | [], _ => true
  | _ :: _, [] => false
  | a :: as, b :: bs => a.toNat == b.toNat && charsLead as bs

/-- The `name LIKE 'sqlite_%'` test: the second string starts with the
first. -/
def strLead (pre s : String) : Bool := charsLead pre.data s.data

/-- AllDBs of sqlite.go: the name of every table whose name does not
begin with `sqlite_`, in schema order. -/
def AllDBs (sv : Server) : List String :=
  sv.tables.filter (fun t => !strLead "sqlite_" t)

def isLowerAlpha (c : Char) : Bool := 97 ≤ c.toNat && c.toNat ≤ 122

def isDbNameChar (c : Char) : Bool :=
  isLowerAlpha c || (48 ≤ c.toNat && c.toNat ≤ 57) || c.toNat == 95 || c.toNat == 36
    || c.toNat == 40 || c.toNat == 41 || c.toNat == 43 || c.toNat == 47 || c.toNat == 45

/-- The database-name validation regexp of sqlite.go: a lowercase letter
followed by lowercase letters, digits, underscore, dollar, parentheses,
plus, slash or dash. -/
def validDBName (name : String) : Bool :=
  match name.data with
  | [] => false
  | c :: cs => isLowerAlpha c && cs.all isDbNameChar

/-- A DDL statement of the schema: a CREATE TABLE or a CREATE INDEX. -/
inductive Ddl where
  | table (t : String)
  | index (i : String)
deriving DecidableEq, Repr

/-- The schema of schema.go instantiated for one database name, in
statement order: the `_revs` table, the idx_parent index, the body table,
the `_attachments` table. -/
def schemaOf (name : String) : List Ddl :=
  [Ddl.table (name ++ "_revs"), Ddl.index ("idx_parent"),
    Ddl.table name, Ddl.table (name ++ "_attachments")]

/-- Execution of one DDL statement. SQLite refuses to create an object
whose name begins with `sqlite_` (reserved), and an existing table or
index name makes the statement fail with an already-exists error, which
CreateDB maps to PreconditionFailed. -/
def execDdl (sv : Server) : Ddl → Except Err Server
  | .table t =>
    if strLead "sqlite_" t then .error (Err.storage ("object name reserved for internal use"))
    else if sv.tables.contains t then .error (Err.preconditionFailed ("database already exists"))
    else .ok ⟨sv.tables ++ [t], sv.indexes⟩
  | .index i =>
    if sv.indexes.contains i then .error (Err.preconditionFailed ("database already exists"))
    else .ok ⟨sv.tables, sv.indexes ++ [i]⟩

def applySchema (sv : Server) : List Ddl → Except Err Server
  | [] => .ok sv
  | d :: ds =>
    match execDdl sv d with
    | .error e => .error e
    | .ok sv1 => applySchema sv1 ds

/-- CreateDB of sqlite.go: validates the name, then applies the schema
statements in order inside one transaction, rolling back on the first
failure. -/
def CreateDB (sv : Server) (name : String) : Except Err Server :=
  if !validDBName name then .error (Err.badRequest ("invalid database name"))
  else applySchema sv (schemaOf name)

/-- Written from the spec's words (section 4.3), for comparison against
the code: a leaf is a revision node with no child node for the same
document. -/
def specIsLeaf (s : DB) (id : String) (rev : Nat) (revId : String) : Bool :=
  nodeExists s id rev revId &&
    !(s.revs.any (fun r => r.id == id && r.parentRev == some rev && r.parentRevId == some revId))

/-- Written from the spec's words (section 4.3), for comparison against
the code: the winning body row of a document — among body rows of leaf
revisions, prefer the non-deleted ones, break ties by highest
(rev, rev_id); none when every leaf body is deleted or there is none. -/
def specWinner (s : DB) (id : String) : Option DocRow :=
  let leafBodies := s.docs.filter (fun row => row.id == id && specIsLeaf s id row.rev row.revId)
  match (leafBodies.filter (fun row => !row.deleted)).foldl betterRow none with
  | some row => some row
  | none => leafBodies.foldl betterRow none

/-- A database state reachable by two new_edits=false Puts of document
"foo": a live leaf 1-bbb and a deleted leaf 2-aaa on separate branches. -/
def c1state : DB :=
  ⟨[⟨"foo", 1, "bbb", none, none⟩, ⟨"foo", 2, "aaa", none, none⟩],
   [⟨1, "foo", 1, "bbb", "\x7b\"cat\":\"meow\"\x7d", false⟩,
    ⟨2, "foo", 2, "aaa", "\x7b\"_deleted\":true\x7d", true⟩]⟩

/-- A state reachable by two new_edits=false Puts of "foo": two live
conflicting leaves 1-aaa and 2-bbb; the winner is 2-bbb. -/
def c2state : DB :=
  ⟨[⟨"foo", 1, "aaa", none, none⟩, ⟨"foo", 2, "bbb", none, none⟩],
   [⟨1, "foo", 1, "aaa", "\x7b\"cat\":\"meow\"\x7d", false⟩,
    ⟨2, "foo", 2, "bbb", "\x7b\"cat\":\"purr\"\x7d", false⟩]⟩

/-- A state reachable by one new_edits=false Put of the local document
"_local/dog". -/
def c7state : DB :=
  ⟨[⟨"_local/dog", 1, "aaa", none, none⟩],
   [⟨1, "_local/dog", 1, "aaa", "\x7b\"dog\":\"woof\"\x7d", false⟩]⟩

/-- The effective doc rev Put works with: the body-level `_rev`, or the
rev option when the body has none. -/
def effRev (doc : Doc) (opts : PutOpts) : String :=
  if extractRev doc == "" && opts.rev != "" then opts.rev else extractRev doc

/-- A state reachable by two new_edits=false Puts of "foo": a live leaf
1-aaa and a deleted leaf 2-bbb; the spec winner is 1-aaa. -/
def c5state : DB :=
  ⟨[⟨"foo", 1, "aaa", none, none⟩, ⟨"foo", 2, "bbb", none, none⟩],
   [⟨1, "foo", 1, "aaa", "\x7b\"cat\":\"meow\"\x7d", false⟩,
    ⟨2, "foo", 2, "bbb", "\x7b\"_deleted\":true\x7d", true⟩]⟩

def isOkB {α : Type} : Except Err α → Bool
  | .ok _ => true
  | .error _ => false

def c5wdoc : Doc := ⟨none, none, none, none, [("foo", "bar")]⟩

def c6wstate : DB :=
  ⟨[⟨"foo", 1, "abc", none, none⟩], [⟨1, "foo", 1, "abc", "\x7b\x7d", false⟩]⟩

/-- A state holding only the deleted body row 1-abc of "foo", plus a
revision node 2-def that has no body row. -/
def c9state : DB :=
  ⟨[⟨"foo", 1, "abc", none, none⟩, ⟨"foo", 2, "def", none, none⟩],
   [⟨1, "foo", 1, "abc", "\x7b\"_deleted\":true\x7d", true⟩]⟩

/-- Sanity anchors: the engine-generated rev ids reproduce the hash
vectors of the repository's own put tests. -/
example : md5hex (canonicalDoc ⟨none, none, none, none, [("foo", "bar")]⟩)
    = "9bb58f26192e4ba00f01e2e7b136bbd8" := by decide

set_option maxRecDepth 100000 in
example : md5hex (canonicalDoc ⟨none, none, some true, none, [("foo", "bar")]⟩)
    = "6872a0fc474ada5c46ce054b92897063" := by decide

theorem parseRev_canon (s : String) (r : Revision) (h : parseRev s = .ok r) :
    0 < r.rev ∧ toString r.rev ++ "-" ++ r.id = s := by
  unfold parseRev at h
  split at h
  · simp at h
  · rename_i numChars restChars heq
    cases hn : natOfChars numChars with
    | none => rw [hn] at h; simp at h
    | some n =>
      rw [hn] at h
      split at h
      · rename_i hnone
        simp at hnone
      · rename_i m hm
        split at h
        · rename_i hok
          simp only [Except.ok.injEq] at h
          subst h
          exact hok
        · simp at h

theorem charsLt_irrefl : ∀ l : List Char, charsLt l l = false := by
  intro l
  induction l with
  | nil => rfl
  | cons a as ih => simp [charsLt, ih]

theorem charsLt_asymm : ∀ a b : List Char, charsLt a b = true → charsLt b a = false := by
  intro a
  induction a with
  | nil =>
    intro b h
    cases b with
    | nil => cases h
    | cons y ys => rfl
  | cons x xs ih =>
    intro b h
    cases b with
    | nil => cases h
    | cons y ys =>
      simp only [charsLt] at h ⊢
      by_cases h1 : x.toNat < y.toNat
      · rw [if_neg (Nat.lt_asymm h1), if_pos h1]
      · by_cases h2 : y.toNat < x.toNat
        · rw [if_neg h1, if_pos h2] at h; cases h
        · rw [if_neg h1, if_neg h2] at h
          rw [if_neg h2, if_neg h1]
          exact ih ys h

theorem charsLt_neg_trans : ∀ a b c : List Char,
    charsLt b a = false → charsLt c b = false → charsLt c a = false := by
  intro a
  induction a with
  | nil =>
    intro b c h1 h2
    cases c with
    | nil => rfl
    | cons z zs => rfl
  | cons x xs ih =>
    intro b c h1 h2
    cases b with
    | nil => simp [charsLt] at h1
    | cons y ys =>
      cases c with
      | nil => simp [charsLt] at h2
      | cons z zs =>
        simp only [charsLt] at h1 h2 ⊢
        by_cases hyx : y.toNat < x.toNat
        · rw [if_pos hyx] at h1; cases h1
        · rw [if_neg hyx] at h1
          by_cases hzy : z.toNat < y.toNat
          · rw [if_pos hzy] at h2; cases h2
          · rw [if_neg hzy] at h2
            have hzx : ¬ z.toNat < x.toNat := by omega
            by_cases hxz : x.toNat < z.toNat
            · rw [if_neg hzx, if_pos hxz]
            · rw [if_neg hzx, if_neg hxz]
              have hxy : ¬ x.toNat < y.toNat := by omega
              have hyz : ¬ y.toNat < z.toNat := by omega
              rw [if_neg hxy] at h1
              rw [if_neg hyz] at h2
              exact ih ys zs h1 h2

theorem revLtb_irrefl (a : Nat × String) : revLtb a a = false := by
  simp [revLtb, strLtb, charsLt_irrefl]

theorem revLtb_eq_true_iff (a b : Nat × String) :
    revLtb a b = true ↔ (a.1 < b.1 ∨ (a.1 = b.1 ∧ strLtb a.2 b.2 = true)) := by
  simp [revLtb, Bool.or_eq_true, Bool.and_eq_true, decide_eq_true_eq, beq_iff_eq]

theorem revLtb_eq_false_iff (a b : Nat × String) :
    revLtb a b = false ↔ ¬(a.1 < b.1 ∨ (a.1 = b.1 ∧ strLtb a.2 b.2 = true)) := by
  rw [← revLtb_eq_true_iff]
  constructor
  · intro h hh
    rw [hh] at h
    cases h
  · intro h
    cases hb : revLtb a b
    · rfl
    · exact absurd hb h

theorem revLtb_asymm (a b : Nat × String) (h : revLtb a b = true) : revLtb b a = false := by
  cases hb : revLtb b a
  · rfl
  · exfalso
    rw [revLtb_eq_true_iff] at h hb
    rcases h with h | ⟨he, hs⟩ <;> rcases hb with hb | ⟨hbe, hbs⟩
    · omega
    · omega
    · omega
    · have h2 : strLtb b.2 a.2 = false := charsLt_asymm _ _ hs
      rw [h2] at hbs
      cases hbs

theorem revLtb_neg_trans (a b c : Nat × String)
    (h1 : revLtb b a = false) (h2 : revLtb c b = false) : revLtb c a = false := by
  rw [revLtb_eq_false_iff] at h1 h2 ⊢
  rw [not_or] at h1 h2
  obtain ⟨h1a, h1b⟩ := h1
  obtain ⟨h2a, h2b⟩ := h2
  intro hca
  rcases hca with hca | ⟨hce, hcs⟩
  · omega
  · have hba : b.1 = a.1 := by omega
    have hcb : c.1 = b.1 := by omega
    have hb2 : strLtb b.2 a.2 = false := by
      cases hx : strLtb b.2 a.2
      · rfl
      · exact absurd ⟨hba, hx⟩ h1b
    have hc2 : strLtb c.2 b.2 = false := by
      cases hx : strLtb c.2 b.2
      · rfl
      · exact absurd ⟨hcb, hx⟩ h2b
    have : strLtb c.2 a.2 = false := charsLt_neg_trans _ _ _ hb2 hc2
    rw [this] at hcs
    cases hcs

theorem foldl_betterRow_mem (l : List DocRow) :
    ∀ (acc : Option DocRow) (row : DocRow),
      l.foldl betterRow acc = some row → row ∈ l ∨ acc = some row := by
  induction l with
  | nil =>
    intro acc row h
    right; simpa using h
  | cons x xs ih =>
    intro acc row h
    rw [List.foldl_cons] at h
    rcases ih (betterRow acc x) row h with hm | hacc
    · left; exact List.mem_cons_of_mem x hm
    · cases acc with
      | none =>
        simp only [betterRow, Option.some.injEq] at hacc
        left; rw [← hacc]; exact List.mem_cons_self x xs
      | some m =>
        simp only [betterRow] at hacc
        split at hacc
        · simp only [Option.some.injEq] at hacc
          left; rw [← hacc]; exact List.mem_cons_self x xs
        · right; exact hacc

theorem foldl_betterRow_ge (l : List DocRow) :
    ∀ (acc : Option DocRow) (row : DocRow),
      l.foldl betterRow acc = some row →
      (∀ r ∈ l, revLtb (rowKey row) (rowKey r) = false) ∧
      (∀ m, acc = some m → revLtb (rowKey row) (rowKey m) = false) := by
  induction l with
  | nil =>
    intro acc row h
    simp only [List.foldl_nil] at h
    refine ⟨by simp, ?_⟩
    intro m hm
    rw [h] at hm
    injection hm with hmm
    rw [hmm]
    exact revLtb_irrefl _
  | cons x xs ih =>
    intro acc row h
    rw [List.foldl_cons] at h
    obtain ⟨h1, h2⟩ := ih (betterRow acc x) row h
    have hx : revLtb (rowKey row) (rowKey x) = false := by
      cases acc with
      | none => exact h2 x rfl
      | some m =>
        by_cases hlt : revLtb (rowKey m) (rowKey x) = true
        · exact h2 x (by simp [betterRow, hlt])
        · have hmle := h2 m (by simp [betterRow, hlt])
          have hxm : revLtb (rowKey m) (rowKey x) = false := by
            cases hc : revLtb (rowKey m) (rowKey x)
            · rfl
            · exact absurd hc hlt
          exact revLtb_neg_trans _ _ _ hxm hmle
    constructor
    · intro r hr
      rcases List.mem_cons.mp hr with hr | hmem
      · rw [hr]; exact hx
      · exact h1 r hmem
    · intro m hm
      cases acc with
      | none => cases hm
      | some m0 =>
        injection hm with hmm
        rw [← hmm]
        by_cases hlt : revLtb (rowKey m0) (rowKey x) = true
        · exact revLtb_neg_trans _ _ _ (revLtb_asymm _ _ hlt) hx
        · have hxm : revLtb (rowKey m0) (rowKey x) = false := by
            cases hc : revLtb (rowKey m0) (rowKey x)
            · rfl
            · exact absurd hc hlt
          exact h2 m0 (by simp [betterRow, hlt])

theorem foldl_betterRow_isSome (l : List DocRow) :
    ∀ (m : DocRow), (l.foldl betterRow (some m)).isSome = true := by
  induction l with
  | nil => intro m; rfl
  | cons x xs ih =>
    intro m
    rw [List.foldl_cons]
    show (xs.foldl betterRow (if revLtb (rowKey m) (rowKey x) then some x else some m)).isSome = true
    split
    · exact ih x
    · exact ih m

theorem maxDocRow_isSome (s : DB) (id : String)
    (h : s.docs.any (fun r => r.id == id) = true) : ∃ row, maxDocRow s id = some row := by
  obtain ⟨r, hmem, hr⟩ := List.any_eq_true.mp h
  have hf : r ∈ s.docs.filter (fun r => r.id == id) := List.mem_filter.mpr ⟨hmem, hr⟩
  unfold maxDocRow
  cases hl : s.docs.filter (fun r => r.id == id) with
  | nil => rw [hl] at hf; cases hf
  | cons x xs =>
    rw [List.foldl_cons]
    have := foldl_betterRow_isSome xs x
    exact Option.isSome_iff_exists.mp (by simpa [betterRow] using this)

theorem maxDocRow_spec (s : DB) (id : String) (row : DocRow) (h : maxDocRow s id = some row) :
    row ∈ s.docs ∧ row.id = id ∧
      ∀ r ∈ s.docs, r.id = id → revLtb (rowKey row) (rowKey r) = false := by
  unfold maxDocRow at h
  rcases foldl_betterRow_mem _ _ _ h with hm | hacc
  · obtain ⟨hmem, hid⟩ := List.mem_filter.mp hm
    refine ⟨hmem, by simpa using hid, ?_⟩
    intro r hr hrid
    exact (foldl_betterRow_ge _ _ _ h).1 r (List.mem_filter.mpr ⟨hr, by simpa using hrid⟩)
  · cases hacc

/-- C1, counterexample. The claim says Get with no rev returns the body of
the preferred leaf — non-deleted leaves first — and reports the document
absent only when every leaf is deleted. In c1state the non-deleted leaf
1-bbb is the spec winner, yet Get answers NotFound, because the code reads
only the highest (rev, rev_id) body row (the deleted 2-aaa) and never
falls back to a lower non-deleted leaf. -/
theorem c1_counterexample :
    specWinner c1state "foo" =
      some ⟨1, "foo", 1, "bbb", "\x7b\"cat\":\"meow\"\x7d", false⟩ ∧
    Get c1state "foo" "" = .error (Err.notFound ("not found")) := by
  decide

/-- C1 (amended): for a document with at least one stored body row, Get
with no rev option is decided by a body row that is maximal in
(rev, rev_id) among all of the document's body rows — leaf or not: its
body is returned when it is not deleted, and NotFound is reported when it
is deleted, regardless of any other non-deleted leaves. -/
theorem c1_get_highest_body_row (s : DB) (id : String)
    (h : s.docs.any (fun r => r.id == id) = true) :
    ∃ row ∈ s.docs, row.id = id ∧
      (∀ r ∈ s.docs, r.id = id → revLtb (rowKey row) (rowKey r) = false) ∧
      Get s id "" = (if row.deleted then .error (Err.notFound ("not found"))
        else .ok (Revision.string ⟨row.rev, row.revId⟩, row.doc)) := by
  obtain ⟨row, hrow⟩ := maxDocRow_isSome s id h
  obtain ⟨hmem, hid, hmax⟩ := maxDocRow_spec s id row hrow
  refine ⟨row, hmem, hid, hmax, ?_⟩
  unfold Get
  rw [hrow]
  rfl

/-- Witness for c1_get_highest_body_row at a one-row database. -/
theorem c1_get_highest_body_row_witness :
    ((⟨[⟨"a", 1, "x", none, none⟩], [⟨1, "a", 1, "x", "b", false⟩]⟩ : DB).docs.any
        (fun r => r.id == "a") = true) ∧
    (∃ row ∈ (⟨[⟨"a", 1, "x", none, none⟩], [⟨1, "a", 1, "x", "b", false⟩]⟩ : DB).docs,
      row.id = "a" ∧
      (∀ r ∈ (⟨[⟨"a", 1, "x", none, none⟩], [⟨1, "a", 1, "x", "b", false⟩]⟩ : DB).docs,
        r.id = "a" → revLtb (rowKey row) (rowKey r) = false) ∧
      Get ⟨[⟨"a", 1, "x", none, none⟩], [⟨1, "a", 1, "x", "b", false⟩]⟩ "a" ""
        = (if row.deleted then .error (Err.notFound ("not found"))
          else .ok (Revision.string ⟨row.rev, row.revId⟩, row.doc))) :=
  ⟨by decide, c1_get_highest_body_row _ "a" (by decide)⟩

/-- C2, the code evaluated at the failing input. The claim (and the
repository's own TestDBAllDocs) requires exactly one row per document,
carrying the winning revision — here only ("foo", "2-bbb"). The AllDocs
of views.go instead emits one row for every stored body row. -/
theorem c2_alldocs_emits_every_revision :
    AllDocs c2state = [("foo", "1-aaa"), ("foo", "2-bbb")] ∧
    specWinner c2state "foo" =
      some ⟨2, "foo", 2, "bbb", "\x7b\"cat\":\"purr\"\x7d", false⟩ := by
  decide

/-- C3, the code evaluated at the failing input of scenario S3. The claim
(with the repository's put tests) expects Put with new_edits=false and a
`_revisions` chain to succeed with "3-ghi" and synthesize three parented
revision nodes; the Put of db.go never reads `_revisions`, finds no
doc rev, and fails BadRequest — its own error message even names the
`_revisions` alternative it does not implement. -/
theorem c3_revisions_not_synthesized :
    Put ⟨[], []⟩ "foo" ⟨none, none, none, some (3, ["ghi", "def", "abc"]), [("foo", "bar")]⟩
      ⟨false, ""⟩
    = .error (Err.badRequest
        ("When `new_edits: false`, the document needs `_rev` or `_revisions` specified")) := by
  decide

/-- C7, the code evaluated at the failing input. The claim (and the
"local docs excluded" case of TestDBAllDocs) requires ids beginning with
`_local/` never to appear in AllDocs or Changes; neither scan filters
them, so the local document is emitted by both. -/
theorem c7_local_docs_emitted :
    AllDocs c7state = [("_local/dog", "1-aaa")] ∧
    (Changes c7state).rows.map (fun r => r.id) = ["_local/dog"] := by
  decide

/-- C4: replaying an identical new_edits=false Put is idempotent — if the
first call succeeds with state s1 and rev string r, running the same call
on s1 returns the same r and leaves s1 unchanged: the revision-node
insert's unique-constraint conflict is ignored, and the body-row conflict
answers with the supplied rev while the transaction rolls back. -/
theorem c4_replay_idempotent (s s1 : DB) (docID : String) (doc : Doc) (opts : PutOpts) (r : String)
    (hne : opts.newEdits = false)
    (h : Put s docID doc opts = .ok (s1, r)) :
    Put s1 docID doc opts = .ok (s1, r) := by
  unfold Put at h ⊢
  simp only [] at h ⊢
  split at h
  · cases h
  · rename_i hval
    rw [if_neg hval]
    split at h
    · cases h
    · rename_i data hprep
      rw [if_pos hne]
      generalize hdr : (if (extractRev doc == "" && opts.rev != "") = true
        then opts.rev else extractRev doc) = dr at h ⊢
      split at h
      · cases h
      · rename_i hdr0
        rw [if_neg hdr0]
        split at h
        · cases h
        · rename_i rev hparse
          split at h
          · rename_i hbody
            simp only [Except.ok.injEq, Prod.mk.injEq] at h
            obtain ⟨hs1, hr⟩ := h
            subst hs1
            subst hr
            rw [if_pos hbody]
          · rename_i hbody
            simp only [Except.ok.injEq, Prod.mk.injEq] at h
            obtain ⟨hs1, hr⟩ := h
            subst hs1
            subst hr
            have hb : bodyExists
                ⟨if nodeExists s docID rev.rev rev.id = true then s.revs
                  else s.revs ++ [⟨docID, rev.rev, rev.id, none, none⟩],
                 s.docs ++ [⟨maxSeq s + 1, docID, rev.rev, rev.id, data.doc, data.deleted⟩]⟩
                docID rev.rev rev.id = true := by
              simp [bodyExists]
            rw [if_pos hb]
            have hc := parseRev_canon _ _ hparse
            rw [hc.2]

/-- Witness for c4_replay_idempotent: the same 1-abc replication insert
twice, second call answered from the first call's state. -/
theorem c4_replay_idempotent_witness :
    ((⟨false, ""⟩ : PutOpts).newEdits = false) ∧
    Put ⟨[], []⟩ "foo" ⟨none, some ("1-abc"), none, none, [("foo", "bar")]⟩ ⟨false, ""⟩
      = .ok (⟨[⟨"foo", 1, "abc", none, none⟩],
          [⟨1, "foo", 1, "abc", "\x7b\"foo\":\"bar\"\x7d", false⟩]⟩, "1-abc") ∧
    Put ⟨[⟨"foo", 1, "abc", none, none⟩], [⟨1, "foo", 1, "abc", "\x7b\"foo\":\"bar\"\x7d", false⟩]⟩
      "foo" ⟨none, some ("1-abc"), none, none, [("foo", "bar")]⟩ ⟨false, ""⟩
      = .ok (⟨[⟨"foo", 1, "abc", none, none⟩],
          [⟨1, "foo", 1, "abc", "\x7b\"foo\":\"bar\"\x7d", false⟩]⟩, "1-abc") :=
  ⟨rfl, by decide, c4_replay_idempotent ⟨[], []⟩ _ _ _ _ _ rfl (by decide)⟩

/-- C5, counterexample. The claim requires Conflict whenever the doc rev
differs from the winner's string form; in c5state the winner (section 4.3
rules) is 1-aaa, yet a new_edits=true Put carrying rev 2-bbb — the string
of the highest, deleted body row — succeeds instead of conflicting. -/
theorem c5_counterexample :
    (specWinner c5state "foo").map (fun row => Revision.string ⟨row.rev, row.revId⟩)
      = some "1-aaa" ∧
    isOkB (Put c5state "foo" ⟨none, some "2-bbb", none, none, [("cat", "purr")]⟩ ⟨true, ""⟩)
      = true := by
  decide

/-- C5 (amended): a new_edits=true Put that passes pre-validation fails
with Conflict exactly when the effective doc rev differs from the string
form of the highest (rev, rev_id) body row of the document — the empty
string when the document has no body rows; deletedness and the leaf
structure of the revision tree are not consulted. -/
theorem c5_conflict_iff (s : DB) (docID : String) (doc : Doc) (opts : PutOpts)
    (hne : opts.newEdits = true)
    (hval : (opts.rev != "" && extractRev doc != "" && opts.rev != extractRev doc) = false)
    (hid : doc.xid.getD docID = docID) :
    (Put s docID doc opts = .error (Err.conflict ("conflict")) ↔
      effRev doc opts ≠ (curRev s docID).string) := by
  have hval2 : ¬((opts.rev != "" && extractRev doc != "" && opts.rev != extractRev doc) = true) := by
    rw [hval]
    exact Bool.false_ne_true
  unfold Put effRev
  rw [if_neg hval2]
  unfold prepareDoc
  rw [if_pos hid]
  simp only []
  rw [hne]
  rw [if_neg (by decide : ¬(true = false))]
  constructor
  · intro hput
    by_cases hbne : ((curRev s docID).string !=
        (if (extractRev doc == "" && opts.rev != "") = true then opts.rev else extractRev doc)) = true
    · exact fun hh => (bne_iff_ne.mp hbne) hh.symm
    · exfalso
      rw [if_neg hbne] at hput
      split at hput
      · simp at hput
      · split at hput
        · simp at hput
        · simp at hput
  · intro hneq
    rw [if_pos (bne_iff_ne.mpr (fun hh => hneq hh.symm))]

/-- Witness for c5_conflict_iff: a fresh document written with no rev
against an empty database. -/
theorem c5_conflict_iff_witness :
    ((⟨true, ""⟩ : PutOpts).newEdits = true) ∧
    (((⟨true, ""⟩ : PutOpts).rev != "" && extractRev c5wdoc != ""
        && (⟨true, ""⟩ : PutOpts).rev != extractRev c5wdoc) = false) ∧
    (c5wdoc.xid.getD "foo" = "foo") ∧
    (Put ⟨[], []⟩ "foo" c5wdoc ⟨true, ""⟩ = .error (Err.conflict ("conflict")) ↔
      effRev c5wdoc ⟨true, ""⟩ ≠ (curRev ⟨[], []⟩ "foo").string) :=
  ⟨rfl, by decide, by decide, c5_conflict_iff _ _ _ _ rfl (by decide) (by decide)⟩

/-- C6, counterexample. The claim makes Delete(id, rev) and the tombstone
Put observably equivalent on every state; on a document with no body rows
Delete fails NotFound (404) while the equivalent Put fails Conflict
(409). -/
theorem c6_counterexample :
    Delete ⟨[], []⟩ "foo" ⟨true, "1-abc"⟩ = .error (Err.notFound ("not found")) ∧
    Put ⟨[], []⟩ "foo" deletedDoc ⟨true, "1-abc"⟩ = .error (Err.conflict ("conflict")) := by
  decide

/-- C6 (amended): for a document with at least one stored body row,
Delete(id, opts) is observably equivalent to Put(id, the body with only
_deleted true, new_edits=true and the same rev): the same result — error
or new tombstone revision — and the same resulting state. -/
theorem c6_delete_eq_put (s : DB) (docID : String) (opts : PutOpts)
    (h : s.docs.any (fun r => r.id == docID) = true) :
    Delete s docID opts = Put s docID deletedDoc ⟨true, opts.rev⟩ := by
  obtain ⟨row, hrow⟩ := maxDocRow_isSome s docID h
  unfold Delete Put curRev
  rw [hrow]
  simp only [extractRev, deletedDoc, Option.getD]
  rw [if_neg (by simp : ¬((opts.rev != "" && "" != "" && opts.rev != "") = true))]
  simp only [if_neg (by decide : ¬(true = false))]
  simp only [prepareDoc, Option.getD, eq_self_iff_true, if_true, beq_self_eq_true]
  by_cases hr : opts.rev = ""
  · simp only [hr, show (if (true && "" != "") = true then "" else "") = ("" : String) from rfl]
  · have hsel : (if (true && opts.rev != "") = true then opts.rev else "") = opts.rev := by
      simp [hr]
    simp only [hsel]

/-- Witness for c6_delete_eq_put on a one-document database. -/
theorem c6_delete_eq_put_witness :
    (c6wstate.docs.any (fun r => r.id == "foo") = true) ∧
    Delete c6wstate "foo" ⟨true, "1-abc"⟩ = Put c6wstate "foo" deletedDoc ⟨true, "1-abc"⟩ :=
  ⟨by decide, c6_delete_eq_put _ _ _ (by decide)⟩

/-- C8: the ETag of a Changes feed is the lowercase hex MD5 of
"<count>.<min seq>.<max seq>" computed over the very rows the feed
returns, with min and max falling back to 0 on an empty feed — the
aggregates and the rows come from one query over the same scan. -/
theorem c8_changes_etag (s : DB) :
    (Changes s).etag = md5hex (toString (Changes s).rows.length ++ "."
      ++ toString (coalesceMin ((Changes s).rows.map (fun c => c.seq)))
      ++ "." ++ toString (coalesceMax ((Changes s).rows.map (fun c => c.seq)))) := by
  unfold Changes changesSummary
  simp only [List.length_map, List.map_map]
  rfl

/-- C9: Get with an explicit rev option reads exactly the (id, rev,
rev_id) body row: when such a row is stored its body is returned — the
deleted flag is never consulted, so a tombstone body is returned too —
and otherwise the result is NotFound, whatever revision nodes exist. -/
theorem c9_get_by_rev (s : DB) (id : String) (revStr : String) (r : Revision)
    (h : parseRev revStr = .ok r) :
    (∃ row ∈ s.docs, row.id = id ∧ row.rev = r.rev ∧ row.revId = r.id ∧
        Get s id revStr = .ok (r.string, row.doc)) ∨
      ((∀ row ∈ s.docs, ¬(row.id = id ∧ row.rev = r.rev ∧ row.revId = r.id)) ∧
        Get s id revStr = .error (Err.notFound ("not found"))) := by
  have hne : revStr ≠ "" := by
    intro hempty
    rw [hempty] at h
    simp [parseRev, splitDash] at h
  have hget : Get s id revStr =
      (match s.docs.find? (fun row => row.id == id && row.rev == r.rev && row.revId == r.id) with
        | none => .error (Err.notFound ("not found"))
        | some row => .ok (r.string, row.doc)) := by
    unfold Get
    rw [if_pos (bne_iff_ne.mpr hne), h]
  cases hf : s.docs.find? (fun row => row.id == id && row.rev == r.rev && row.revId == r.id) with
  | none =>
    rw [hf] at hget
    right
    refine ⟨?_, hget⟩
    intro row hmem hand
    have hnp := List.find?_eq_none.mp hf row hmem
    apply hnp
    simp [hand.1, hand.2.1, hand.2.2]
  | some row =>
    rw [hf] at hget
    left
    have hp := List.find?_some hf
    have hmem := List.mem_of_find?_eq_some hf
    simp only [Bool.and_eq_true, beq_iff_eq] at hp
    exact ⟨row, hmem, hp.1.1, hp.1.2, hp.2, hget⟩

/-- Witness for c9_get_by_rev: reading the tombstone 1-abc by explicit
rev. -/
theorem c9_get_by_rev_witness :
    (parseRev "1-abc" = .ok ⟨1, "abc"⟩) ∧
    ((∃ row ∈ c9state.docs, row.id = "foo" ∧ row.rev = (⟨1, "abc"⟩ : Revision).rev ∧
        row.revId = (⟨1, "abc"⟩ : Revision).id ∧
        Get c9state "foo" "1-abc" = .ok ((⟨1, "abc"⟩ : Revision).string, row.doc)) ∨
      ((∀ row ∈ c9state.docs, ¬(row.id = "foo" ∧ row.rev = (⟨1, "abc"⟩ : Revision).rev ∧
          row.revId = (⟨1, "abc"⟩ : Revision).id)) ∧
        Get c9state "foo" "1-abc" = .error (Err.notFound ("not found")))) :=
  ⟨by decide, c9_get_by_rev _ _ _ _ (by decide)⟩

/-- C10: when CreateDB succeeds, AllDBs afterwards lists the previous
tables plus three new entries for the one database — name_revs, name and
name_attachments, in schema order — because it returns every non-sqlite_
table name, not one name per database. -/
theorem c10_alldbs_after_createdb (sv sv1 : Server) (name : String)
    (h : CreateDB sv name = .ok sv1) :
    AllDBs sv1 = AllDBs sv ++ [name ++ "_revs", name, name ++ "_attachments"] := by
  unfold CreateDB at h
  split at h
  · cases h
  · simp only [schemaOf, applySchema, execDdl] at h
    split at h
    · cases h
    · rename_i sva heq1
      split at h
      · cases h
      · rename_i svb heq2
        split at h
        · cases h
        · rename_i svc heq3
          split at h
          · cases h
          · rename_i svd heq4
            injection h with h2
            subst h2
            split at heq1
            · cases heq1
            · rename_i hres1
              split at heq1
              · cases heq1
              · rename_i hcont1
                injection heq1 with he1
                subst he1
                split at heq2
                · cases heq2
                · rename_i hidx
                  injection heq2 with he2
                  subst he2
                  split at heq3
                  · cases heq3
                  · rename_i hres2
                    split at heq3
                    · cases heq3
                    · rename_i hcont2
                      injection heq3 with he3
                      subst he3
                      split at heq4
                      · cases heq4
                      · rename_i hres3
                        split at heq4
                        · cases heq4
                        · rename_i hcont3
                          injection heq4 with he4
                          subst he4
                          have e1 : strLead "sqlite_" (name ++ "_revs") = false := by
                            revert hres1
                            cases strLead "sqlite_" (name ++ "_revs") <;> simp
                          have e2 : strLead "sqlite_" name = false := by
                            revert hres2
                            cases strLead "sqlite_" name <;> simp
                          have e3 : strLead "sqlite_" (name ++ "_attachments") = false := by
                            revert hres3
                            cases strLead "sqlite_" (name ++ "_attachments") <;> simp
                          simp [AllDBs, List.filter_append, e1, e2, e3]

/-- Witness for c10_alldbs_after_createdb: creating "db1" on an empty
store. -/
theorem c10_alldbs_after_createdb_witness :
    (CreateDB ⟨[], []⟩ "db1" = .ok ⟨["db1_revs", "db1", "db1_attachments"], ["idx_parent"]⟩) ∧
    AllDBs (⟨["db1_revs", "db1", "db1_attachments"], ["idx_parent"]⟩ : Server)
      = AllDBs ⟨[], []⟩ ++ ["db1" ++ "_revs", "db1", "db1" ++ "_attachments"] :=
  ⟨by decide, c10_alldbs_after_createdb _ _ _ (by decide)⟩
